import Mathlib

/-!
Shallow embedding of `src/COSMOSAC/modules.py` (COSMO-SAC 2020 activity
coefficient engine).  Machine floats are modelled by real numbers; Python
exceptions by `Except`.  Division follows Lean's convention `x / 0 = 0`
except where the Python code genuinely raises (`float` division by zero in
`_cES`, the `None`-lookup `TypeError` in `_get_dsp`), which are modelled as
explicit `Except.error` branches.
-/

namespace COSMOSAC

/-! ### Model constants (module-level constants of `modules.py`) -/

noncomputable section

def q0 : ℝ := 79.53
def r0 : ℝ := 66.69
def zc : ℝ := 10
def Rgas : ℝ := 1.987204258e-3
def AES : ℝ := 6525.69
def BES : ℝ := 1.4859e8
def aeff : ℝ := 7.25

/-- `_chb`, the hydrogen-bonding parameter table. -/
def chb : Fin 3 → Fin 3 → ℝ := ![![0, 0, 0], ![0, 4013.78, 3016.43], ![0, 3016.43, 932.31]]

/-- `_cES`.  Written as in the source, `A + B / T / T`. -/
def cES (T : ℝ) : ℝ := AES + BES / T / T

/-- `np.linspace(-0.025, 0.025, 51)`: point `k` is `-0.025 + k * (0.05 / 50)`. -/
def sig (k : Fin 51) : ℝ := -0.025 + 0.05 / 50 * (k : ℝ)

/-- `_cal_DW`.  The source loops over `j ≤ i` and assigns the same
matrix (built from `chb[i, j]`) to both `DW[i, j]` and `DW[j, i]`;
entry `[m, n]` of that matrix broadcasts to `sigT[m]`, `sig[n]`. -/
def calDW (T : ℝ) (i j : Fin 3) (m n : Fin 51) : ℝ :=
  let p := if (j : ℕ) ≤ (i : ℕ) then chb i j else chb j i
  cES T * (sig n + sig m) ^ 2 -
    (if sig n * sig m < 0 then p * (sig n - sig m) ^ 2 else 0)

end

/-! ### Atom classifier `_get_atom_type` -/

/-- `atom[j]` (out-of-range reads, impossible for the square inputs the
code receives, default to the empty symbol). -/
def symAt (atoms : List String) (j : ℕ) : String := atoms.getD j ""

/-- `np.flatnonzero(bond[i])`: indices of bonded atoms, in ascending order
(Python dict keys built from it preserve this order). -/
def nbrsOf (bond : List (List Bool)) (i : ℕ) : List ℕ :=
  let row := bond.getD i []
  (List.range row.length).filter fun j => row.getD j false

/-- Whether the symbol has an entry in the `atom_prop` dictionary. -/
def isKnownSym (s : String) : Bool :=
  s == "C" || s == "O" || s == "N" || s == "F" || s == "Cl" || s == "H"

/-- The `atom_prop` degree-indexed lookup, with the
`("other", "NHB", "NHB")` default of `.get`. -/
def atomProp (sym : String) (deg : ℕ) : String × String × String :=
  match sym, deg with
  | "C", 2 => ("C(sp)", "NHB", "NHB")
  | "C", 3 => ("C(sp2)", "NHB", "NHB")
  | "C", 4 => ("C(sp3)", "NHB", "NHB")
  | "O", 1 => ("O(sp2)", "OT", "HBOA")
  | "O", 2 => ("O(sp3)", "OT", "HBOA")
  | "N", 1 => ("N(sp)", "OT", "HBOA")
  | "N", 2 => ("N(sp2)", "OT", "HBOA")
  | "N", 3 => ("N(sp3)", "OT", "HBOA")
  | "F", 1 => ("F", "OT", "HBOA")
  | "Cl", 1 => ("Cl", "NHB", "NHB")
  | "H", 1 => ("H(other)", "NHB", "NHB")
  | _, _ => ("other", "NHB", "NHB")

/-- The mutable state of the atom loop: `dtype`, `stype` lists and the
`dntype` vote set (modelled as a duplicate-free list). -/
structure ClsState where
  dtype : List String
  stype : List String
  dntype : List String
deriving DecidableEq, Repr

/-- Initial state: `["other"] * n`, `["NHB"] * n`, empty vote set. -/
def initCls (n : ℕ) : ClsState :=
  ⟨List.replicate n "other", List.replicate n "NHB", []⟩

/-- One iteration of the atom loop of `_get_atom_type` (lines 150-222).
The returned `Bool` is `true` exactly when the body executes one of the
`break` statements (lines 190, 202, 211, 219), which in Python terminates
the whole loop. -/
def classifyBody (atoms : List String) (bond : List (List Bool)) (i : ℕ)
    (s : ClsState) : ClsState × Bool :=
  let ai := symAt atoms i
  let nbrs := nbrsOf bond i
  let nbrSyms := nbrs.map (symAt atoms)
  -- degree-based lookup in atom_prop
  let s :=
    if isKnownSym ai then
      let p := atomProp ai nbrs.length
      { dtype := s.dtype.set i p.1, stype := s.stype.set i p.2.1,
        dntype := s.dntype.insert p.2.2 }
    else s
  -- H bonded to N
  let s :=
    if ai = "H" ∧ "N" ∈ nbrSyms then
      { dtype := s.dtype.set i "H(NH)", stype := s.stype.set i "OT",
        dntype := s.dntype.insert "HBDA" }
    else s
  -- H bonded to F
  let s :=
    if ai = "H" ∧ "F" ∈ nbrSyms then
      { s with stype := s.stype.set i "OT", dntype := s.dntype.insert "HBDA" }
    else s
  -- H bonded to O: -OH, water and carboxyl detection
  if ai = "H" ∧ "O" ∈ nbrSyms then
    -- j = list(ard_i.keys())[0], the first (lowest-index) neighbour of i
    let j := nbrs.headD 0
    let nbrsJ := nbrsOf bond j
    let s := { dtype := s.dtype.set i "H(OH)",
               stype := (s.stype.set i "OH").set j "OH",
               dntype := s.dntype.insert "HBDA" }
    if nbrsJ.length ≠ 2 then (s, true)
    else
      let k := (nbrsJ.filter fun a => a != i).headD 0
      let nbrsK := nbrsOf bond k
      if symAt atoms k = "H" then
        ({ s with dtype := (s.dtype.set i "H(water)").set k "H(water)",
                  dntype := s.dntype.insert "WATER" }, true)
      else if ¬(symAt atoms k = "C" ∧ nbrsK.length = 3 ∧
                 (nbrsK.map (symAt atoms)).count "O" = 2) then (s, true)
      else
        let m := (nbrsK.filter fun a => a != j && symAt atoms a == "O").headD 0
        let nbrsM := nbrsOf bond m
        if nbrsM.length ≠ 1 then (s, true)
        else ({ s with dntype := s.dntype.insert "COOH" }, false)
  else (s, false)

/-- The atom loop: a `break` from the body terminates the whole loop. -/
def classifyLoop (atoms : List String) (bond : List (List Bool)) :
    List ℕ → ClsState → ClsState
  | [], s => s
  | i :: rest, s =>
    let r := classifyBody atoms bond i s
    if r.2 then r.1 else classifyLoop atoms bond rest r.1

/-- Lines 225-232: the sequential overwrites resolving the dispersive
nature of the molecule from the accumulated votes. -/
def resolveDnatr (dn : List String) : String :=
  let d1 := if "HBOA" ∈ dn then "HBOA" else "NHB"
  let d2 := if "HBDA" ∈ dn then "HBDA" else d1
  let d3 := if "WATER" ∈ dn then "WATER" else d2
  if "COOH" ∈ dn then "COOH" else d3

/-- `_get_atom_type`, returning `(dtype, dnatr)` as the source does
(`stype` is computed but not returned). -/
def getAtomType (atoms : List String) (bond : List (List Bool)) :
    List String × String :=
  let fin := classifyLoop atoms bond (List.range atoms.length) (initCls atoms.length)
  (fin.dtype, resolveDnatr fin.dntype)

/-! ### Dispersion parameterizer `_get_dsp` -/

/-- The `ddict` dispersion-parameter table; `none` models a missing key
(`dict.get` returning Python `None`). -/
noncomputable def ddict (d : String) : Option ℝ :=
  match d with
  | "C(sp3)" => some 115.7023
  | "C(sp2)" => some 117.4650
  | "C(sp)" => some 66.0691
  | "N(sp3)" => some 15.4901
  | "N(sp2)" => some 84.6268
  | "N(sp)" => some 109.6621
  | "O(sp3)" => some 95.6184
  | "O(sp2)" => some (-11.0549)
  | "F" => some 52.9318
  | "Cl" => some 104.2534
  | "H(water)" => some 58.3301
  | "H(OH)" => some 19.3477
  | "H(NH)" => some 141.1709
  | "H(other)" => some 0
  | _ => none

/-- Whether any atom's dispersion type is missing from `ddict`. -/
noncomputable def hasUnmapped (dtype : List String) : Bool :=
  dtype.any fun d => (ddict d).isNone

/-- `np.count_nonzero(ek)`: the number of atoms whose mapped parameter is
non-zero (the divisor of the mean in `_get_dsp`). -/
noncomputable def dspDenom (dtype : List String) : ℕ :=
  (dtype.filter fun d => (ddict d).getD 0 ≠ 0).length

/-- `_get_dsp`.  When some dispersion type is missing from the table, the
`None` produced by `ddict.get` makes `np.sum` / the float cast raise a
`TypeError`, modelled as `Except.error`.  Otherwise the mean of the
non-zero parameters is returned; when every parameter is zero the divisor
`np.count_nonzero` is `0` and the unguarded quotient is returned (IEEE
NaN; real-number junk value here). -/
noncomputable def getDsp (dtype : List String) : Except Unit ℝ :=
  if hasUnmapped dtype then .error ()
  else .ok ((dtype.map fun d => (ddict d).getD 0).sum / (dspDenom dtype : ℝ))

/-! ### Combinatorial term `cal_ln_gam_comb` -/

noncomputable def cal_ln_gam_comb {nc : ℕ} (A V x : Fin nc → ℝ) (i : Fin nc) : ℝ :=
  let q := fun a => A a / q0
  let r := fun a => V a / r0
  let L := fun a => zc / 2 * (r a - q a) - (r a - 1)
  let theta := fun a => q a / ∑ b, x b * q b
  let phi := fun a => r a / ∑ b, x b * r b
  Real.log (phi i) + zc * q i * Real.log (theta i / phi i) / 2 + L i -
    phi i * ∑ b, x b * L b

/-! ### Residual term: segment-activity solver `cal_ln_gam_res` -/

/-- `psig = psigA * (1 / A)` (per-molecule normalized sigma profile). -/
noncomputable def psig {nc : ℕ} (A : Fin nc → ℝ)
    (psigA : Fin nc → Fin 3 → Fin 51 → ℝ) (i : Fin nc) (t : Fin 3) (m : Fin 51) : ℝ :=
  psigA i t m * (1 / A i)

/-- `psig_mix = einsum("i,itm->tm", x, psigA) / sum(x * A)`. -/
noncomputable def psigMix {nc : ℕ} (A : Fin nc → ℝ)
    (psigA : Fin nc → Fin 3 → Fin 51 → ℝ) (x : Fin nc → ℝ) (t : Fin 3) (m : Fin 51) : ℝ :=
  (∑ i, x i * psigA i t m) / ∑ i, x i * A i

/-- `exp_DW = np.exp(-_cal_DW(T) / _R / T)`. -/
noncomputable def expDW (T : ℝ) (s t : Fin 3) (m n : Fin 51) : ℝ :=
  Real.exp (-calDW T s t m n / Rgas / T)

/-- The segment activity coefficients: `Gam` (per molecule) and
`Gam_mix` (mixture reference). -/
structure GamState (nc : ℕ) where
  Gam : Fin nc → Fin 3 → Fin 51 → ℝ
  GamMix : Fin 3 → Fin 51 → ℝ

/-- `np.ones`: both coefficient sets start at 1. -/
def initGam (nc : ℕ) : GamState nc := ⟨fun _ _ _ => 1, fun _ _ => 1⟩

/-- One body execution of the `for _ in range(500)` loop: the reciprocal
contraction updates (`A_plus` expanded in place:
`A_plus[i,s,t,m,n] = exp_DW[s,t,m,n] * psig[i,s,n]`) followed by the
`(1.618 * new + old) / 2.618` damping. -/
noncomputable def resStep {nc : ℕ} (A : Fin nc → ℝ)
    (psigA : Fin nc → Fin 3 → Fin 51 → ℝ) (x : Fin nc → ℝ) (T : ℝ)
    (st : GamState nc) : GamState nc where
  Gam i t m :=
    let g := 1 / ∑ s, ∑ n, expDW T s t m n * psig A psigA i s n * st.Gam i s n
    (1.618 * g + st.Gam i t m) / 2.618
  GamMix t m :=
    let g := 1 / ∑ s, ∑ n, expDW T s t m n * psigMix A psigA x s n * st.GamMix s n
    (1.618 * g + st.GamMix t m) / 2.618

/-- The convergence test `diff <= 1e-4`: the maximum relative change over
both coefficient sets is at most `1e-4`, i.e. every entry's relative
change is. -/
def resConverged {nc : ℕ} (old new : GamState nc) : Prop :=
  (∀ i t m, |(new.Gam i t m - old.Gam i t m) / old.Gam i t m| ≤ 1e-4) ∧
  (∀ t m, |(new.GamMix t m - old.GamMix t m) / old.GamMix t m| ≤ 1e-4)

open Classical in
/-- The fixed-point loop: runs the body, breaks (returning the new state)
as soon as the convergence test passes, and raises
(`raise Exception("Converge Failed")`, the `for`-`else` branch) when the
iteration budget is exhausted without a break. -/
noncomputable def solveLoop {nc : ℕ} (A : Fin nc → ℝ)
    (psigA : Fin nc → Fin 3 → Fin 51 → ℝ) (x : Fin nc → ℝ) (T : ℝ) :
    ℕ → GamState nc → Except Unit (GamState nc)
  | 0, _ => .error ()
  | fuel + 1, st =>
    let st' := resStep A psigA x T st
    if resConverged st st' then .ok st' else solveLoop A psigA x T fuel st'

/-- The damped iterates `s_0 = ones`, `s_{k+1} = resStep s_k`. -/
noncomputable def iterGam {nc : ℕ} (A : Fin nc → ℝ)
    (psigA : Fin nc → Fin 3 → Fin 51 → ℝ) (x : Fin nc → ℝ) (T : ℝ) (k : ℕ) :
    GamState nc :=
  (resStep A psigA x T)^[k] (initGam nc)

/-- Error taxonomy for the embedded query.  `inputShape` is declared to
state the spec's `InputShapeError`; the code never produces it. -/
inductive Err
  | inputShape
  | zeroDivision
  | convergeFailed
  | typeError
deriving DecidableEq, Repr

open Classical in
/-- `cal_ln_gam_res`.  At `T = 0` the Python float division `_BES / T / T`
inside `_cal_DW` raises `ZeroDivisionError` before the loop.  Otherwise
the solver runs with a budget of 500 iterations; on convergence the
residual ln-gamma is assembled from the converged state. -/
noncomputable def cal_ln_gam_res {nc : ℕ} (A : Fin nc → ℝ)
    (psigA : Fin nc → Fin 3 → Fin 51 → ℝ) (x : Fin nc → ℝ) (T : ℝ) :
    Except Err (Fin nc → ℝ) :=
  if T = 0 then .error .zeroDivision
  else
    match solveLoop A psigA x T 500 (initGam nc) with
    | .error _ => .error .convergeFailed
    | .ok st =>
      .ok fun i =>
        (∑ t, ∑ m, psigA i t m * (Real.log (st.GamMix t m) - Real.log (st.Gam i t m))) / aeff

/-! ### Dispersive term `cal_ln_gam_dsp` -/

/-- Membership of `{a, b}` in the `wpair` list of four unordered label
pairs. -/
def wFlip (a b : String) : Bool :=
  (a == "WATER" && b == "HBOA") || (a == "HBOA" && b == "WATER") ||
  (a == "COOH" && b == "NHB") || (a == "NHB" && b == "COOH") ||
  (a == "COOH" && b == "HBDA") || (a == "HBDA" && b == "COOH") ||
  (a == "WATER" && b == "COOH") || (a == "COOH" && b == "WATER")

open Classical in
/-- `cal_ln_gam_dsp`.  If any dispersion parameter is `None` the whole
dispersive term is zero for every molecule; otherwise the pairwise
interaction sums.  (`None in dnatr` is always false: labels are strings.)
The `w` matrix is `0.27027` everywhere except the strictly off-diagonal
entries whose label pair is in `wpair`, which are `-0.27027`. -/
noncomputable def cal_ln_gam_dsp {nc : ℕ} (x : Fin nc → ℝ) (ek : Fin nc → Option ℝ)
    (dnatr : Fin nc → String) (i : Fin nc) : ℝ :=
  if ∃ j, ek j = none then 0
  else
    let e := fun j => (ek j).getD 0
    let w := fun a b : Fin nc =>
      if a ≠ b ∧ wFlip (dnatr a) (dnatr b) then (-0.27027 : ℝ) else 0.27027
    let Am := fun a b => w a b * (0.5 * (e a + e b) - Real.sqrt (e a * e b))
    (Finset.univ.filter fun j => j ≠ i).sum (fun j => x j * Am i j) -
      (Finset.univ.filter fun j => i < j).sum fun j => x i * x j * Am i j

/-! ### Composer `calculate_gamma` -/

/-- One entry of `chemical_profiles`: the feature bundle of a molecule. -/
structure Profile where
  area : ℝ
  volume : ℝ
  psigA : Fin 3 → Fin 51 → ℝ
  atoms : List String
  bonds : List (List Bool)

open Classical in
/-- `calculate_gamma`.  The per-molecule loop runs `_get_atom_type` and
`_get_dsp` first (a `TypeError` there aborts the query), then the three
ln-gamma terms are computed and summed, and the result exponentiated. -/
noncomputable def calculate_gamma {nc : ℕ} (profiles : Fin nc → Profile)
    (x : Fin nc → ℝ) (T : ℝ) : Except Err (Fin nc → ℝ) :=
  let cls := fun i => getAtomType (profiles i).atoms (profiles i).bonds
  let areas := fun i => (profiles i).area
  let vols := fun i => (profiles i).volume
  let psigAs := fun i => (profiles i).psigA
  if ∃ i, getDsp (cls i).1 = .error () then .error .typeError
  else
    match cal_ln_gam_res areas psigAs x T with
    | .error e => .error e
    | .ok res =>
      let comb := cal_ln_gam_comb areas vols x
      let dsp := cal_ln_gam_dsp x (fun i => (getDsp (cls i).1).toOption) fun i => (cls i).2
      .ok fun i => Real.exp (comb i + res i + dsp i)


/-! ### Solver termination: C2 -/

/-- The loop raises exactly when every one of its `fuel` convergence
tests fails. -/
theorem solveLoop_error_iff {nc : ℕ} (A : Fin nc → ℝ)
    (psigA : Fin nc → Fin 3 → Fin 51 → ℝ) (x : Fin nc → ℝ) (T : ℝ)
    (fuel : ℕ) (st : GamState nc) :
    solveLoop A psigA x T fuel st = .error () ↔
      ∀ k < fuel, ¬ resConverged ((resStep A psigA x T)^[k] st)
        ((resStep A psigA x T)^[k + 1] st) := by
  induction fuel generalizing st with
  | zero => simp [solveLoop]
  | succ f ih =>
    rw [solveLoop]
    by_cases h : resConverged st (resStep A psigA x T st)
    · simp only [if_pos h]
      constructor
      · intro hok; exact absurd hok (by simp)
      · intro hall
        exact absurd h (by simpa using hall 0 (Nat.succ_pos f))
    · simp only [if_neg h]
      rw [ih (resStep A psigA x T st)]
      constructor
      · intro hall k hk
        match k with
        | 0 => simpa using h
        | k' + 1 =>
          have h2 := hall k' (by omega)
          simpa [Function.iterate_succ_apply] using h2
      · intro hall k hk
        have h2 := hall (k + 1) (by omega)
        simpa [Function.iterate_succ_apply] using h2

/-- C2: for nonzero temperature, the segment-activity solver raises the
non-convergence error if and only if all 500 iterations fail the
`max relative change <= 1e-4` test (across both coefficient sets); when
some iteration passes it, the solver returns normally. -/
theorem claim_C2 {nc : ℕ} (A : Fin nc → ℝ) (psigA : Fin nc → Fin 3 → Fin 51 → ℝ)
    (x : Fin nc → ℝ) (T : ℝ) (hT : T ≠ 0) :
    (cal_ln_gam_res A psigA x T = .error .convergeFailed ↔
      ∀ k < 500, ¬ resConverged (iterGam A psigA x T k) (iterGam A psigA x T (k + 1))) ∧
    ((∃ k < 500, resConverged (iterGam A psigA x T k) (iterGam A psigA x T (k + 1))) →
      ∃ r, cal_ln_gam_res A psigA x T = .ok r) := by
  have hiff := solveLoop_error_iff A psigA x T 500 (initGam nc)
  unfold cal_ln_gam_res
  simp only [if_neg hT]
  unfold iterGam
  cases h : solveLoop A psigA x T 500 (initGam nc) with
  | error e =>
    rw [h] at hiff
    constructor
    · simpa using hiff
    · rintro ⟨k, hk, hconv⟩
      exact absurd hconv ((hiff.mp rfl) k hk)
  | ok st =>
    rw [h] at hiff
    constructor
    · constructor
      · intro hfalse; exact absurd hfalse (by simp)
      · intro hall
        have : (Except.ok st : Except Unit (GamState nc)) = .error () := hiff.mpr hall
        exact absurd this (by simp)
    · intro _
      exact ⟨_, rfl⟩

theorem claim_C2_witness :
    (1 : ℝ) ≠ 0 ∧
    ((cal_ln_gam_res (fun _ : Fin 1 => 1) (fun _ _ _ => 0) (fun _ => 1) 1 =
        .error .convergeFailed ↔
      ∀ k < 500, ¬ resConverged (iterGam (fun _ : Fin 1 => 1) (fun _ _ _ => 0) (fun _ => 1) 1 k)
        (iterGam (fun _ : Fin 1 => 1) (fun _ _ _ => 0) (fun _ => 1) 1 (k + 1))) ∧
    ((∃ k < 500, resConverged (iterGam (fun _ : Fin 1 => 1) (fun _ _ _ => 0) (fun _ => 1) 1 k)
        (iterGam (fun _ : Fin 1 => 1) (fun _ _ _ => 0) (fun _ => 1) 1 (k + 1))) →
      ∃ r, cal_ln_gam_res (fun _ : Fin 1 => 1) (fun _ _ _ => 0) (fun _ => 1) 1 = .ok r)) :=
  ⟨one_ne_zero, claim_C2 (fun _ : Fin 1 => 1) (fun _ _ _ => 0) (fun _ => 1) 1 one_ne_zero⟩

end COSMOSAC

namespace COSMOSAC

/-! ### Concrete molecules used by witnesses and counterexamples -/

/-- A water descriptor with the oxygen at position `p`: two hydrogens and
one oxygen, each hydrogen bonded only to the oxygen. -/
def wAtomsP (p : Fin 3) : List String :=
  (List.range 3).map fun k => if k = p.val then "O" else "H"

def wBondsP (p : Fin 3) : List (List Bool) :=
  (List.range 3).map fun r => (List.range 3).map fun c =>
    (r != c) && (r == p.val || c == p.val)

/-- Formic acid `H(0)-O(1)-C(2)(=O(3))-H(4)` followed by water
`H(5)-O(6)-H(7)`. -/
def aAtoms : List String := ["H", "O", "C", "O", "H", "H", "O", "H"]

def aBonds : List (List Bool) :=
  [[false, true, false, false, false, false, false, false],
   [true, false, true, false, false, false, false, false],
   [false, true, false, true, true, false, false, false],
   [false, false, true, false, false, false, false, false],
   [false, false, true, false, false, false, false, false],
   [false, false, false, false, false, false, true, false],
   [false, false, false, false, false, true, false, true],
   [false, false, false, false, false, false, true, false]]

/-- The same molecule with the atoms listed water-first: atom `j` of the
reordering is atom `sigmaPerm[j]` of `aAtoms`/`aBonds`. -/
def sigmaPerm : List ℕ := [5, 6, 7, 0, 1, 2, 3, 4]

def bAtoms : List String := ["H", "O", "H", "H", "O", "C", "O", "H"]

def bBonds : List (List Bool) :=
  [[false, true, false, false, false, false, false, false],
   [true, false, true, false, false, false, false, false],
   [false, true, false, false, false, false, false, false],
   [false, false, false, false, true, false, false, false],
   [false, false, false, true, false, true, false, false],
   [false, false, false, false, true, false, true, true],
   [false, false, false, false, false, true, false, false],
   [false, false, false, false, false, true, false, false]]

/-- Water followed by two bonded chlorine atoms: the water hydrogens
trigger the early loop exit before the chlorines are classified. -/
def cAtoms : List String := ["H", "O", "H", "Cl", "Cl"]

def cBonds : List (List Bool) :=
  [[false, true, false, false, false],
   [true, false, true, false, false],
   [false, true, false, false, false],
   [false, false, false, false, true],
   [false, false, false, true, false]]

/-- Methane: C bonded to four H. -/
def mAtoms : List String := ["C", "H", "H", "H", "H"]

def mBonds : List (List Bool) :=
  [[false, true, true, true, true],
   [true, false, false, false, false],
   [true, false, false, false, false],
   [true, false, false, false, false],
   [true, false, false, false, false]]

/-- A methane feature bundle with unit area and volume. -/
noncomputable def mProfile : Profile :=
  { area := 1, volume := 1, psigA := fun _ _ => 0, atoms := mAtoms, bonds := mBonds }

/-- A feature bundle for a lone carbon atom, whose hybridization category
is the unmapped "other". -/
noncomputable def badProfile : Profile :=
  { area := 1, volume := 1, psigA := fun _ _ => 0, atoms := ["C"], bonds := [[false]] }

/-! ### Exchange-energy tensor: C3 and C4 -/

theorem chb_symm (i j : Fin 3) : chb i j = chb j i := by
  fin_cases i <;> fin_cases j <;> rfl

/-- Normal form of a `_cal_DW` entry. -/
theorem calDW_eq (T : ℝ) (i j : Fin 3) (m n : Fin 51) :
    calDW T i j m n =
      cES T * (sig m + sig n) ^ 2 -
        (if sig m * sig n < 0 then chb i j * (sig m - sig n) ^ 2 else 0) := by
  unfold calDW
  have h1 : sig n + sig m = sig m + sig n := add_comm _ _
  have h2 : sig n * sig m = sig m * sig n := mul_comm _ _
  have h3 : (sig n - sig m) ^ 2 = (sig m - sig n) ^ 2 := by ring
  by_cases hij : (j : ℕ) ≤ (i : ℕ)
  · simp only [hij, if_true, h1, h2, h3]
  · simp only [hij, if_false, h1, h2, h3, chb_symm i j]

/-- C3: each exchange-energy entry equals `(A_ES + B_ES / T²) (σ_m + σ_n)²`
minus `chb[i,j] (σ_m − σ_n)²` exactly when `σ_m σ_n < 0`; the bins are the
51 evenly spaced points of `[-0.025, 0.025]`; `chb` is symmetric with a
zero row and column for the non-hydrogen-bonding type. -/
theorem claim_C3 (T : ℝ) (i j : Fin 3) (m n : Fin 51) :
    calDW T i j m n =
      (6525.69 + 1.4859e8 / T ^ 2) * (sig m + sig n) ^ 2 -
        (if sig m * sig n < 0 then chb i j * (sig m - sig n) ^ 2 else 0) ∧
    chb i j = chb j i ∧ chb 0 j = 0 ∧ chb i 0 = 0 ∧
    sig m = -0.025 + 0.001 * (m : ℝ) := by
  refine ⟨?_, chb_symm i j, ?_, ?_, ?_⟩
  · rw [calDW_eq]
    have : cES T = 6525.69 + 1.4859e8 / T ^ 2 := by
      unfold cES AES BES
      rw [div_div, ← pow_two]
    rw [this]
  · fin_cases j <;> rfl
  · fin_cases i <;> rfl
  · unfold sig
    norm_num

/-- C4: the exchange-energy tensor satisfies
`tensor[i,j,m,n] = tensor[j,i,n,m]` for every temperature. -/
theorem claim_C4 (T : ℝ) (i j : Fin 3) (m n : Fin 51) :
    calDW T i j m n = calDW T j i n m := by
  rw [calDW_eq, calDW_eq, chb_symm]
  have h1 : sig m + sig n = sig n + sig m := add_comm _ _
  have h2 : sig m * sig n = sig n * sig m := mul_comm _ _
  have h3 : (sig m - sig n) ^ 2 = (sig n - sig m) ^ 2 := by ring
  rw [h1, h2, h3]


/-! ### Pure-component query: C1 -/

/-- The composition vector `[1.0]` of a single-component query. -/
def xPure : Fin 1 → ℝ := fun _ => 1

theorem comb_single (A V : Fin 1 → ℝ) (hA : A 0 ≠ 0) (hV : V 0 ≠ 0) (i : Fin 1) :
    cal_ln_gam_comb A V xPure i = 0 := by
  have hi : i = 0 := Subsingleton.elim _ _
  subst hi
  unfold cal_ln_gam_comb xPure
  simp only [Fin.sum_univ_one, one_mul]
  have hq : A 0 / q0 ≠ 0 := div_ne_zero hA (by norm_num [q0])
  have hr : V 0 / r0 ≠ 0 := div_ne_zero hV (by norm_num [r0])
  rw [div_self hr, div_self hq]
  norm_num

theorem psigMix_single (A : Fin 1 → ℝ) (psigA : Fin 1 → Fin 3 → Fin 51 → ℝ)
    (t : Fin 3) (m : Fin 51) :
    psigMix A psigA xPure t m = psig A psigA 0 t m := by
  unfold psigMix psig xPure
  simp only [Fin.sum_univ_one, one_mul]
  rw [mul_one_div]

theorem resStep_single (A : Fin 1 → ℝ) (psigA : Fin 1 → Fin 3 → Fin 51 → ℝ)
    (T : ℝ) (st : GamState 1) (hst : ∀ t m, st.Gam 0 t m = st.GamMix t m)
    (t : Fin 3) (m : Fin 51) :
    (resStep A psigA xPure T st).Gam 0 t m = (resStep A psigA xPure T st).GamMix t m := by
  show (1.618 * (1 / ∑ s, ∑ n, expDW T s t m n * psig A psigA 0 s n * st.Gam 0 s n) +
      st.Gam 0 t m) / 2.618 =
    (1.618 * (1 / ∑ s, ∑ n, expDW T s t m n * psigMix A psigA xPure s n * st.GamMix s n) +
      st.GamMix t m) / 2.618
  have hsum : (∑ s, ∑ n, expDW T s t m n * psig A psigA 0 s n * st.Gam 0 s n) =
      ∑ s, ∑ n, expDW T s t m n * psigMix A psigA xPure s n * st.GamMix s n := by
    refine Finset.sum_congr rfl fun s _ => Finset.sum_congr rfl fun n _ => ?_
    rw [psigMix_single, hst]
  rw [hsum, hst t m]

theorem solveLoop_single_ok (A : Fin 1 → ℝ) (psigA : Fin 1 → Fin 3 → Fin 51 → ℝ)
    (T : ℝ) (fuel : ℕ) (st : GamState 1) (hst : ∀ t m, st.Gam 0 t m = st.GamMix t m)
    (st' : GamState 1) (h : solveLoop A psigA xPure T fuel st = .ok st') :
    ∀ t m, st'.Gam 0 t m = st'.GamMix t m := by
  induction fuel generalizing st with
  | zero => simp [solveLoop] at h
  | succ f ih =>
    rw [solveLoop] at h
    by_cases hc : resConverged st (resStep A psigA xPure T st)
    · rw [if_pos hc] at h
      injection h with h2
      subst h2
      exact resStep_single A psigA T st hst
    · rw [if_neg hc] at h
      exact ih (resStep A psigA xPure T st) (resStep_single A psigA T st hst) h

theorem res_single_ok (A : Fin 1 → ℝ) (psigA : Fin 1 → Fin 3 → Fin 51 → ℝ)
    (T : ℝ) (r : Fin 1 → ℝ) (h : cal_ln_gam_res A psigA xPure T = .ok r) (i : Fin 1) :
    r i = 0 := by
  unfold cal_ln_gam_res at h
  by_cases hT : T = 0
  · rw [if_pos hT] at h
    cases h
  · rw [if_neg hT] at h
    cases hsl : solveLoop A psigA xPure T 500 (initGam 1) with
    | error e =>
      rw [hsl] at h
      cases h
    | ok st =>
      rw [hsl] at h
      injection h with h2
      subst h2
      have hi : i = 0 := Subsingleton.elim _ _
      subst hi
      have hst : ∀ t m, st.Gam 0 t m = st.GamMix t m :=
        solveLoop_single_ok A psigA T 500 (initGam 1) (fun _ _ => rfl) st hsl
      have hz : ∀ t : Fin 3, ∀ m : Fin 51,
          psigA 0 t m * (Real.log (st.GamMix t m) - Real.log (st.Gam 0 t m)) = 0 := by
        intro t m
        rw [hst t m]
        ring
      simp only [hz, Finset.sum_const_zero, zero_div]

theorem dsp_single (x : Fin 1 → ℝ) (ek : Fin 1 → Option ℝ) (dn : Fin 1 → String)
    (i : Fin 1) : cal_ln_gam_dsp x ek dn i = 0 := by
  unfold cal_ln_gam_dsp
  split
  · rfl
  · have h1 : (Finset.univ.filter fun j : Fin 1 => j ≠ i) = ∅ := by
      ext j
      simp [Subsingleton.elim j i]
    have h2 : (Finset.univ.filter fun j : Fin 1 => i < j) = ∅ := by
      ext j
      have : j = i := Subsingleton.elim _ _
      simp [this]
    rw [h1, h2]
    simp

/-- C1: for a single-component query with positive area and volume, the
combinatorial ln-gamma is zero, any residual ln-gamma the solver returns
is zero, and any activity coefficient `calculate_gamma` returns is 1. -/
theorem claim_C1 (profiles : Fin 1 → Profile) (T : ℝ)
    (hA : 0 < (profiles 0).area) (hV : 0 < (profiles 0).volume) :
    (∀ i, cal_ln_gam_comb (fun a => (profiles a).area) (fun a => (profiles a).volume)
        xPure i = 0) ∧
    (∀ r, cal_ln_gam_res (fun a => (profiles a).area) (fun a => (profiles a).psigA)
        xPure T = .ok r → ∀ i, r i = 0) ∧
    (∀ g, calculate_gamma profiles xPure T = .ok g → ∀ i, g i = 1) := by
  refine ⟨fun i => comb_single _ _ (ne_of_gt hA) (ne_of_gt hV) i,
    fun r h i => res_single_ok _ _ _ r h i, ?_⟩
  intro g hg i
  simp only [calculate_gamma] at hg
  split at hg
  · cases hg
  · cases hres : cal_ln_gam_res (fun a => (profiles a).area)
        (fun a => (profiles a).psigA) xPure T with
    | error e =>
      rw [hres] at hg
      cases hg
    | ok res =>
      rw [hres] at hg
      injection hg with hg2
      subst hg2
      have hcomb : ∀ i', cal_ln_gam_comb (fun a => (profiles a).area)
          (fun a => (profiles a).volume) xPure i' = 0 :=
        comb_single (fun a => (profiles a).area) (fun a => (profiles a).volume)
          (ne_of_gt hA) (ne_of_gt hV)
      have hr : ∀ i', res i' = 0 :=
        res_single_ok (fun a => (profiles a).area) (fun a => (profiles a).psigA) T res hres
      simp only [hcomb, hr, dsp_single, add_zero, zero_add, Real.exp_zero]

theorem claim_C1_witness :
    (0 : ℝ) < mProfile.area ∧ (0 : ℝ) < mProfile.volume ∧
    ((∀ i, cal_ln_gam_comb (fun a => ((fun _ : Fin 1 => mProfile) a).area)
        (fun a => ((fun _ : Fin 1 => mProfile) a).volume) xPure i = 0) ∧
    (∀ r, cal_ln_gam_res (fun a => ((fun _ : Fin 1 => mProfile) a).area)
        (fun a => ((fun _ : Fin 1 => mProfile) a).psigA) xPure 298.15 = .ok r →
        ∀ i, r i = 0) ∧
    (∀ g, calculate_gamma (fun _ : Fin 1 => mProfile) xPure 298.15 = .ok g →
        ∀ i, g i = 1)) :=
  ⟨one_pos, one_pos, claim_C1 (fun _ : Fin 1 => mProfile) 298.15 one_pos one_pos⟩


/-! ### Early loop exit in the classifier: C5 -/

/-- C5: when the body of the atom loop executes a `break` at atom `i`
(the `-OH` refinement's stop conditions), the whole loop terminates: the
final state is exactly the state at the break, so no atom after `i`
receives any classification or dispersive-nature vote beyond what it
already holds. -/
theorem claim_C5 (atoms : List String) (bond : List (List Bool)) (i : ℕ)
    (rest : List ℕ) (s : ClsState)
    (h : (classifyBody atoms bond i s).2 = true) :
    classifyLoop atoms bond (i :: rest) s = (classifyBody atoms bond i s).1 := by
  rw [classifyLoop]
  simp only [h, if_true]

theorem claim_C5_witness :
    (classifyBody cAtoms cBonds 0 (initCls 5)).2 = true ∧
    classifyLoop cAtoms cBonds (0 :: [1, 2, 3, 4]) (initCls 5) =
      (classifyBody cAtoms cBonds 0 (initCls 5)).1 :=
  ⟨by decide, claim_C5 cAtoms cBonds 0 [1, 2, 3, 4] (initCls 5) (by decide)⟩

/-! ### Water classification: C9 -/

/-- C9: every water descriptor (one oxygen at any of the three positions,
two hydrogens bonded only to it) classifies the molecule's dispersive
nature as WATER and every hydrogen as `H(water)`. -/
theorem claim_C9 (p k : Fin 3) (hk : k ≠ p) :
    (getAtomType (wAtomsP p) (wBondsP p)).2 = "WATER" ∧
    (getAtomType (wAtomsP p) (wBondsP p)).1.getD k.val "" = "H(water)" := by
  revert hk
  fin_cases p <;> fin_cases k <;> decide

theorem claim_C9_witness :
    ((1 : Fin 3) ≠ 0) ∧
    ((getAtomType (wAtomsP 0) (wBondsP 0)).2 = "WATER" ∧
     (getAtomType (wAtomsP 0) (wBondsP 0)).1.getD (1 : Fin 3).val "" = "H(water)") :=
  ⟨by decide, claim_C9 0 1 (by decide)⟩

/-! ### Permutation (in)stability of the dispersive-nature label: C8 -/

/-- C8 counterexample: `bAtoms`/`bBonds` is the formic-acid + water
molecule `aAtoms`/`aBonds` with the atom indices permuted consistently by
`sigmaPerm`, yet the dispersive-nature label changes from COOH to WATER:
listing the water hydrogens first makes the early loop exit suppress the
carboxyl vote. -/
theorem claim_C8_counterexample :
    bAtoms = sigmaPerm.map (fun j => aAtoms.getD j "") ∧
    bBonds = (sigmaPerm.map fun j => sigmaPerm.map fun k =>
      (aBonds.getD j []).getD k false) ∧
    (getAtomType aAtoms aBonds).2 = "COOH" ∧
    (getAtomType bAtoms bBonds).2 = "WATER" ∧
    (getAtomType aAtoms aBonds).2 ≠ (getAtomType bAtoms bBonds).2 := by
  refine ⟨by decide, by decide, by decide, by decide, by decide⟩

/-- C8 (amended): the accumulated votes always resolve to one of the five
fixed labels; stability under atom-index permutation does not hold in
general (see the counterexample). -/
theorem claim_C8 (atoms : List String) (bond : List (List Bool)) :
    (getAtomType atoms bond).2 ∈ ["NHB", "HBOA", "HBDA", "WATER", "COOH"] := by
  have h : ∀ dn : List String,
      resolveDnatr dn ∈ ["NHB", "HBOA", "HBDA", "WATER", "COOH"] := by
    intro dn
    unfold resolveDnatr
    by_cases h4 : "COOH" ∈ dn <;> by_cases h3 : "WATER" ∈ dn <;>
      by_cases h2 : "HBDA" ∈ dn <;> by_cases h1 : "HBOA" ∈ dn <;>
      simp [h1, h2, h3, h4]
  exact h _

/-! ### Unmapped hybridization category: C6 -/

/-- C6: a lone carbon is classified "other", which is missing from the
dispersion table; `_get_dsp` then raises (the `None` from the lookup
makes the mean computation fail) instead of returning an absent value,
and a query containing such a molecule fails with that error.  The
global zero fallback of `cal_ln_gam_dsp` (which the claim describes)
exists in the code but is unreachable through `calculate_gamma`. -/
theorem claim_C6 :
    (getAtomType ["C"] [[false]]).1 = ["other"] ∧
    getDsp ["other"] = .error () ∧
    (∀ (x : Fin 2 → ℝ) (T : ℝ),
      calculate_gamma ![mProfile, badProfile] x T = .error Err.typeError) ∧
    (∀ {k : ℕ} (x : Fin k → ℝ) (dn : Fin k → String) (i : Fin k),
      cal_ln_gam_dsp x (fun _ => none) dn i = 0) := by
  have hbad : getDsp ["other"] = .error () := by
    have h : hasUnmapped ["other"] = true := by decide
    unfold getDsp
    rw [h]
    simp
  refine ⟨by decide, hbad, ?_, ?_⟩
  · intro x T
    simp only [calculate_gamma]
    rw [if_pos]
    refine ⟨1, ?_⟩
    have ha : (![mProfile, badProfile] 1).atoms = ["C"] := rfl
    have hb : (![mProfile, badProfile] 1).bonds = [[false]] := rfl
    rw [ha, hb]
    have h1 : (getAtomType ["C"] [[false]]).1 = ["other"] := by decide
    rw [h1, hbad]
  · intro k x dn i
    unfold cal_ln_gam_dsp
    rw [if_pos ⟨i, rfl⟩]


/-! ### All-zero dispersion parameters: C10 -/

/-- C10: when every atom's category maps to the dispersion constant `0`
(e.g. a molecule whose only classified atoms are `H(other)`),
`np.count_nonzero` — the divisor of the mean — is `0`, and `_get_dsp`
returns the unguarded quotient (IEEE NaN; the real-number model's junk
value `0/0 = 0`) rather than failing or guarding the case. -/
theorem claim_C10 (dtype : List String) (_hne : dtype ≠ [])
    (h0 : ∀ d ∈ dtype, ddict d = some 0) :
    dspDenom dtype = 0 ∧ getDsp dtype = .ok 0 := by
  have hden : dspDenom dtype = 0 := by
    unfold dspDenom
    have : (dtype.filter fun d => (ddict d).getD 0 ≠ 0) = [] := by
      rw [List.filter_eq_nil_iff]
      intro a ha
      simp [h0 a ha]
    rw [this]
    rfl
  refine ⟨hden, ?_⟩
  have hnu : hasUnmapped dtype = false := by
    unfold hasUnmapped
    rw [List.any_eq_false]
    intro a ha
    rw [h0 a ha]
    simp
  have hsum : (dtype.map fun d => (ddict d).getD 0).sum = 0 := by
    apply List.sum_eq_zero
    intro a ha
    obtain ⟨d, hd, rfl⟩ := List.mem_map.mp ha
    rw [h0 d hd]
    rfl
  unfold getDsp
  rw [hnu]
  simp only [Bool.false_eq_true, if_false, hsum, zero_div]

theorem claim_C10_witness :
    (["H(other)"] : List String) ≠ [] ∧ (∀ d ∈ (["H(other)"] : List String), ddict d = some 0) ∧
    (dspDenom ["H(other)"] = 0 ∧ getDsp ["H(other)"] = .ok 0) :=
  ⟨by decide,
   fun d hd => by
     rw [List.mem_singleton.mp hd]
     rfl,
   claim_C10 ["H(other)"] (by decide) fun d hd => by
     rw [List.mem_singleton.mp hd]
     rfl⟩

/-! ### No input validation: C7 -/

/-- The errors `cal_ln_gam_res` can produce. -/
theorem res_error_cases {nc : ℕ} (A : Fin nc → ℝ) (psigA : Fin nc → Fin 3 → Fin 51 → ℝ)
    (x : Fin nc → ℝ) (T : ℝ) (e : Err) (h : cal_ln_gam_res A psigA x T = .error e) :
    e = Err.zeroDivision ∨ e = Err.convergeFailed := by
  unfold cal_ln_gam_res at h
  by_cases hT : T = 0
  · rw [if_pos hT] at h
    injection h with h2
    exact Or.inl h2.symm
  · rw [if_neg hT] at h
    cases hsl : solveLoop A psigA x T 500 (initGam nc) with
    | error u =>
      rw [hsl] at h
      injection h with h2
      exact Or.inr h2.symm
    | ok st =>
      rw [hsl] at h
      cases h

/-- `calculate_gamma` contains no input validation: no input whatsoever
makes it fail with the spec's `InputShapeError`. -/
theorem calc_no_inputShape {nc : ℕ} (profiles : Fin nc → Profile) (x : Fin nc → ℝ)
    (T : ℝ) : calculate_gamma profiles x T ≠ .error Err.inputShape := by
  simp only [calculate_gamma]
  split
  · simp
  · cases hres : cal_ln_gam_res (fun i => (profiles i).area)
        (fun i => (profiles i).psigA) x T with
    | error e =>
      rcases res_error_cases _ _ _ _ _ hres with rfl | rfl <;> simp
    | ok r => simp

/-- C7 counterexample: at `T = -1 ≤ 0` (methane, pure component) the query
does not fail with an `InputShapeError`. -/
theorem claim_C7_counterexample :
    (-1 : ℝ) ≤ 0 ∧
    calculate_gamma (fun _ : Fin 1 => mProfile) xPure (-1) ≠ .error Err.inputShape :=
  ⟨by norm_num, calc_no_inputShape (fun _ : Fin 1 => mProfile) xPure (-1)⟩

/-- C7 (amended): `calculate_gamma` performs no input validation, so a
query with `T ≤ 0` is never rejected with an `InputShapeError`; at
`T = 0` it fails instead with the division-by-zero error raised while
building the exchange-energy tensor (before the solver iterations), and
for `T < 0` the solver is reached. -/
theorem claim_C7 {nc : ℕ} (profiles : Fin nc → Profile) (x : Fin nc → ℝ) (T : ℝ)
    (hT : T ≤ 0)
    (hdsp : ¬∃ i, getDsp (getAtomType (profiles i).atoms (profiles i).bonds).1 =
      .error ()) :
    calculate_gamma profiles x T ≠ .error Err.inputShape ∧
    (T = 0 → calculate_gamma profiles x T = .error Err.zeroDivision) := by
  refine ⟨calc_no_inputShape profiles x T, ?_⟩
  rintro rfl
  simp only [calculate_gamma]
  rw [if_neg hdsp]
  have hres : cal_ln_gam_res (fun i => (profiles i).area)
      (fun i => (profiles i).psigA) x 0 = .error .zeroDivision := by
    unfold cal_ln_gam_res
    rw [if_pos rfl]
  rw [hres]

/-- No molecule of the pure-methane query has an unmapped category. -/
theorem mProfile_dsp_ok :
    ¬∃ i : Fin 1, getDsp (getAtomType ((fun _ : Fin 1 => mProfile) i).atoms
      ((fun _ : Fin 1 => mProfile) i).bonds).1 = .error () := by
  rintro ⟨i, hi⟩
  rw [show ((fun _ : Fin 1 => mProfile) i).atoms = mAtoms from rfl,
    show ((fun _ : Fin 1 => mProfile) i).bonds = mBonds from rfl] at hi
  rw [show (getAtomType mAtoms mBonds).1 =
    ["C(sp3)", "H(other)", "H(other)", "H(other)", "H(other)"] from by decide] at hi
  have hnu : hasUnmapped ["C(sp3)", "H(other)", "H(other)", "H(other)", "H(other)"] =
      false := by decide
  unfold getDsp at hi
  rw [hnu] at hi
  simp at hi

theorem claim_C7_witness :
    (0 : ℝ) ≤ 0 ∧
    (¬∃ i : Fin 1, getDsp (getAtomType ((fun _ : Fin 1 => mProfile) i).atoms
      ((fun _ : Fin 1 => mProfile) i).bonds).1 = .error ()) ∧
    (calculate_gamma (fun _ : Fin 1 => mProfile) xPure 0 ≠ .error Err.inputShape ∧
     ((0 : ℝ) = 0 → calculate_gamma (fun _ : Fin 1 => mProfile) xPure 0 =
       .error Err.zeroDivision)) :=
  ⟨le_refl 0, mProfile_dsp_ok,
   claim_C7 (fun _ : Fin 1 => mProfile) xPure 0 (le_refl 0) mProfile_dsp_ok⟩

end COSMOSAC
